import Mathlib

set_option maxHeartbeats 1000000

/-!
Verification of the client-side session/run orchestration of the Nebula
Research frontend (frontend/src/App.jsx).  The definitions below are a
shallow embedding of the utility helpers, the session store operations,
the run controller (`send`, `stopRun`), the stream event handlers, the
ClaudeLoader step rendering and the debounced autocorrect pipeline.
JavaScript numbers are modelled as rationals, and the external effects
(local storage, the fetch/stream network, timers) are made explicit as
parameters or as fields of an explicit state record.
-/

namespace Nebula

/-! ## String utilities (App.jsx `trim`, `titleOf`) -/

/-- Whitespace test for the characters matched by the JS regex `\s`
on the inputs this app meets. -/
def isWsChar (c : Char) : Bool := c == ' ' || c == '\t' || c == '\n' || c == '\r'

/-- Splits a character list into its maximal runs of non-whitespace
characters (accumulator holds the current run, reversed). -/
def wsTokensAux (acc : List Char) : List Char → List String
  | [] => if acc.isEmpty then [] else [String.mk acc.reverse]
  | c :: cs =>
    if isWsChar c then
      if acc.isEmpty then wsTokensAux [] cs
      else String.mk acc.reverse :: wsTokensAux [] cs
    else wsTokensAux (c :: acc) cs

/-- `trim(s) = (s||"").replace(/\s+/g," ").trim()` from App.jsx: collapse
every whitespace run to a single space and strip both ends. -/
def trimS (s : String) : String := " ".intercalate (wsTokensAux [] s.toList)

/-- JS `String.prototype.trim`: strip leading and trailing whitespace only
(used on the captured request text inside the autocorrect response handler). -/
def jsTrim (s : String) : String :=
  String.mk (((s.toList.dropWhile (fun c => isWsChar c)).reverse.dropWhile
    (fun c => isWsChar c)).reverse)

/-- `titleOf(s) = trim(s).slice(0,64) || "Untitled"` from App.jsx. -/
def titleOf (s : String) : String :=
  let t := (trimS s).take 64
  if t = "" then "Untitled" else t

/-- `uid()` from App.jsx returns `m_<timestamp>_<counter>`; the strictly
increasing counter alone is kept, which preserves uniqueness and
non-emptiness of the generated ids. -/
def mkUid (n : Nat) : String := "m_" ++ toString n

/-! ## Data model -/

structure Message where
  id : String
  role : String
  content : String
  citations : List String
deriving DecidableEq, Repr

/-- Payload of a trace entry; the pieces the orchestration logic itself
writes are kept structured, opaque stream payloads are kept as text. -/
inductive TraceData where
  | stateData (s : String)
  | planData (intent : Option String) (steps : List String)
  | payload (s : String)
deriving DecidableEq, Repr

structure TraceEvent where
  type : String
  data : TraceData
deriving DecidableEq, Repr

structure Session where
  id : String
  title : String
  mode : String
  messages : List Message
  trace : List TraceEvent
  createdAt : Nat
deriving DecidableEq, Repr

/-! ## SessionStore operations -/

/-- `appendTrace(id,ev)` from App.jsx: map over the session list and append
the event to the trace of the session with the given id. -/
def appendTraceL (id : String) (ev : TraceEvent) (ss : List Session) : List Session :=
  ss.map fun s => if s.id = id then { s with trace := s.trace ++ [ev] } else s

/-- The session-list update done by the `final` stream handler: append an
assistant message to the session with the given id. -/
def appendMessageL (id : String) (m : Message) (ss : List Session) : List Session :=
  ss.map fun s => if s.id = id then { s with messages := s.messages ++ [m] } else s

/-- `loadSessions` from App.jsx:
`try { return JSON.parse(localStorage.getItem(KEY)||"[]") } catch { return [] }`.
The store content is an optional string (`none` = absent key, mapped to
`"[]"` by `||`), `parse` stands for `JSON.parse` into a session list and
returns `none` exactly when parsing fails, which the `catch` turns into the
empty list.  The function is total: no failure escapes it. -/
def loadSessions (parse : String → Option (List Session)) (stored : Option String) :
    List Session :=
  (parse (stored.getD "[]")).getD []

/-- `saveSessions` from App.jsx:
`try { localStorage.setItem(KEY, JSON.stringify(s)) } catch {}`.
`serialize` stands for `JSON.stringify`; `writeFails` says whether the
store write throws, in which case the `catch` swallows it and the store
keeps its previous content.  The function is total: no failure escapes it. -/
def saveSessions (serialize : List Session → String) (writeFails : Bool)
    (ss : List Session) (store : Option String) : Option String :=
  if writeFails then store else some (serialize ss)

/-- `deleteSession(id)` from App.jsx: filter the session out of the list;
if it was the selected one, select
`sessions.find(s=>s.id!==id)?.id || null` (an empty-string id is falsy in
JS, hence the extra test). -/
def deleteSession (did : String) (ss : List Session) (currentId : Option String) :
    List Session × Option String :=
  let ss' := ss.filter fun s => s.id != did
  let cur' :=
    if currentId = some did then
      match ss.find? (fun s => s.id != did) with
      | some s => if s.id = "" then none else some s.id
      | none => none
    else currentId
  (ss', cur')

/-! ## Run-state and App state -/

inductive Status where
  | idle
  | thinking
  | done
  | error
  | stopped
deriving DecidableEq, Repr

structure Plan where
  intent : Option String
  steps : List String
deriving DecidableEq, Repr

/-- The `{original, corrected}` record surfaced through `setAc`. -/
structure ACRecord where
  original : String
  corrected : String
deriving DecidableEq, Repr

/-- The mutable state of the App component that the orchestration logic
touches.  React state hooks and refs become fields; the open `EventSource`
becomes `stream` (handle number plus the session id its handlers captured
at registration, `none` when closed); the elapsed-time interval becomes
`timerOn`; `uidCtr`/`esCtr` model the fresh-id sources.  `suggestionFor`
is ghost bookkeeping only: the request text whose response produced the
current `suggestion` (the JS code keeps no such record). -/
structure AppState where
  sessions : List Session
  currentId : Option String
  mode : String
  question : String
  status : Status
  elapsed : Rat
  plan : Plan
  progress : Rat
  statusLine : String
  autoCorrectOn : Bool
  suggestion : String
  suggestionFor : String
  ac : Option ACRecord
  runId : Option String
  stream : Option (Nat × String)
  timerOn : Bool
  uidCtr : Nat
  esCtr : Nat
deriving DecidableEq, Repr

/-! ## RunController: stopRun and send -/

/-- `stopRun()` from App.jsx: close the stream if open, clear the ticker,
set status to stopped, and — when a run id is stamped — append a
user-initiated-stop status event to that session's trace.  Note the run id
stamp itself is not cleared. -/
def stopRun (st : AppState) : AppState :=
  let st1 : AppState := { st with stream := none, timerOn := false, status := Status.stopped }
  match st.runId with
  | some id =>
    { st1 with sessions := appendTraceL id ⟨"status", TraceData.stateData "Stopped by user"⟩ st1.sessions }
  | none => st1

/-- `ensureSession(prompt)` from App.jsx, in state-passing form: returns the
resolved session id together with the updated session list, selection and
uid counter.  If a selected session exists it is reused unchanged,
otherwise a fresh session is created, prepended and selected. -/
def ensureSession (prompt : String) (st : AppState) :
    String × List Session × Option String × Nat :=
  match st.currentId.bind (fun cid => st.sessions.find? fun s => s.id == cid) with
  | some c => (c.id, st.sessions, st.currentId, st.uidCtr)
  | none =>
    let nid := mkUid st.uidCtr
    (nid,
     { id := nid, title := titleOf prompt, mode := st.mode,
       messages := [], trace := [], createdAt := 0 } :: st.sessions,
     some nid, st.uidCtr + 1)

/-- The autocorrect resolution inside `send()`: the effective query is the
live suggestion when autocorrect is on and a non-empty suggestion differs
from the trimmed raw text, else the trimmed raw text. -/
def effQuery (st : AppState) : String :=
  if st.autoCorrectOn ∧ st.suggestion ≠ "" ∧ st.suggestion ≠ trimS st.question
  then st.suggestion else trimS st.question

/-- `send()` from App.jsx: trim the question (no-op when empty), resolve
the autocorrection into the effective query `q` and the `ac` record,
resolve/create the session, stamp the run id, append the user message and
clear the trace of that session, reset the run-state, restart the single
elapsed ticker, close any previously open stream and open a fresh one
whose handlers capture the resolved session id.
(The handlers registered on the stream are `planHandler` … `errorHandler`
below, reached through `deliver`.) -/
def send (st : AppState) : AppState :=
  let raw := trimS st.question
  if raw = "" then st else
  let q := effQuery st
  let acRec := if st.autoCorrectOn ∧ st.suggestion ≠ "" ∧ st.suggestion ≠ raw
               then some (⟨raw, st.suggestion⟩ : ACRecord) else none
  let es := ensureSession q st
  let id := es.1
  let sessions1 := es.2.1
  let currentId1 := es.2.2.1
  let ctr1 := es.2.2.2
  let mid := mkUid ctr1
  let sessions2 := sessions1.map fun s =>
    if s.id = id then
      { s with title := if s.messages.isEmpty then titleOf q else s.title,
               messages := s.messages ++ [⟨mid, "user", q, []⟩],
               trace := [] }
    else s
  { st with
      sessions := sessions2
      currentId := currentId1
      suggestion := ""
      suggestionFor := ""
      ac := acRec
      runId := some id
      question := ""
      status := Status.thinking
      elapsed := 0
      plan := ⟨none, []⟩
      progress := 0
      statusLine := ""
      timerOn := true
      stream := some (st.esCtr, id)
      uidCtr := ctr1 + 1
      esCtr := st.esCtr + 1 }

/-! ## EventDispatcher: the stream handlers of send() -/

/-- Handler for the `plan` event: set the run plan and record the event in
the trace of the session whose id the handler captured. -/
def planHandler (capturedId : String) (intent : Option String) (steps : List String)
    (st : AppState) : AppState :=
  { st with plan := ⟨intent, steps⟩,
            sessions := appendTraceL capturedId ⟨"plan", TraceData.planData intent steps⟩ st.sessions }

/-- Handler for the `progress` event:
`if (typeof d.pct === "number") setProgress(d.pct)` — the raw value is
stored, nothing is clamped here. -/
def progressHandler (pct : Option Rat) (st : AppState) : AppState :=
  match pct with
  | some p => { st with progress := p }
  | none => st

/-- Handler for the `status` event: set the status line
(`d?.state || ""` is the already-defaulted text) and record it in the
captured session's trace. -/
def statusHandler (capturedId : String) (stateMsg : String) (st : AppState) : AppState :=
  { st with statusLine := stateMsg,
            sessions := appendTraceL capturedId ⟨"status", TraceData.stateData stateMsg⟩ st.sessions }

/-- Handler for the trace-only events
(`queries`, `search`, `read`, `extract`, `rationale`): record verbatim in
the captured session's trace, no run-state change. -/
def traceOnlyHandler (capturedId : String) (ty : String) (pl : String)
    (st : AppState) : AppState :=
  { st with sessions := appendTraceL capturedId ⟨ty, TraceData.payload pl⟩ st.sessions }

/-- Handler for the `final` event: append the assistant message to the
captured session, set progress to 100, status to done, stop the ticker and
close the handler's own stream (a no-op when that stream was already
replaced).  The 800ms cosmetic reset of progress to 0 is a delayed render
effect and is not part of this state transition. -/
def finalHandler (capturedId : String) (capturedEs : Nat)
    (answer : String) (citations : List String) (st : AppState) : AppState :=
  let mid := mkUid st.uidCtr
  { st with
      sessions := appendMessageL capturedId ⟨mid, "assistant", answer, citations⟩ st.sessions
      uidCtr := st.uidCtr + 1
      progress := 100
      status := Status.done
      timerOn := false
      stream := if st.stream.map Prod.fst = some capturedEs then none else st.stream }

/-- Handler for the transport `error` event: record an error trace entry,
set status to error, stop the ticker and close the handler's own stream. -/
def errorHandler (capturedId : String) (capturedEs : Nat) (st : AppState) : AppState :=
  { st with
      sessions := appendTraceL capturedId ⟨"error", TraceData.stateData "Network/server error"⟩ st.sessions
      status := Status.error
      timerOn := false
      stream := if st.stream.map Prod.fst = some capturedEs then none else st.stream }

/-- One typed event of the streaming run endpoint. -/
inductive StreamEvent where
  | planEv (intent : Option String) (steps : List String)
  | progressEv (pct : Option Rat)
  | statusEv (s : String)
  | traceEv (ty : String) (pl : String)
  | finalEv (answer : String) (citations : List String)
  | errorEv
deriving DecidableEq, Repr

/-- Dispatch of one event to the handlers that `send` registered, with the
session id and stream handle they captured at registration. -/
def handleEvent (capturedId : String) (capturedEs : Nat) :
    StreamEvent → AppState → AppState
  | StreamEvent.planEv i s => planHandler capturedId i s
  | StreamEvent.progressEv p => progressHandler p
  | StreamEvent.statusEv s => statusHandler capturedId s
  | StreamEvent.traceEv ty pl => traceOnlyHandler capturedId ty pl
  | StreamEvent.finalEv a c => finalHandler capturedId capturedEs a c
  | StreamEvent.errorEv => errorHandler capturedId capturedEs

/-- Delivery of an event produced by the stream with handle `src`.  A
closed `EventSource` dispatches no further events, so only events of the
currently open stream reach their handlers, which captured exactly that
stream's session id. -/
def deliver (src : Nat) (ev : StreamEvent) (st : AppState) : AppState :=
  match st.stream with
  | some (h, cid) => if h = src then handleEvent cid h ev st else st
  | none => st

/-! ## ClaudeLoader rendering -/

/-- The percentage figure ClaudeLoader shows:
`Math.max(0, Math.min(100, progress||0))` (on rationals `p||0` is the
identity, since `0||0 = 0`). -/
def displayedPct (p : Rat) : Rat := max 0 (min 100 p)

/-- `stepPct = ((i+1)/plan.steps.length)*100` from ClaudeLoader. -/
def stepPct (n i : Nat) : Rat := (((i : Rat) + 1) / (n : Rat)) * 100

/-- The step-done test from ClaudeLoader:
`done = (progress||0) >= stepPct - 1`. -/
def stepDone (progress : Rat) (n i : Nat) : Bool :=
  decide (progress ≥ stepPct n i - 1)

/-- Index-passing worker for `loaderSteps`. -/
def loaderStepsAux (n : Nat) (progress : Rat) : Nat → List String → List (String × Bool)
  | _, [] => []
  | i, s :: rest => (s, stepDone progress n i) :: loaderStepsAux n progress (i + 1) rest

/-- The (label, done) marks ClaudeLoader renders for the plan steps:
`plan.steps.map((s,i) => (s, done i))` with `done` as in `stepDone`. -/
def loaderSteps (plan : Plan) (progress : Rat) : List (String × Bool) :=
  loaderStepsAux plan.steps.length progress 0 plan.steps

/-! ## AutocorrectCoordinator: debounced suggestion pipeline

The textarea `onChange` handler, `requestAutocorrect` and the response
continuation of its `fetch`, as a small machine driven by timestamped
events.  `pendingTimer` is the single `suggestTimerRef` slot (fire time
and the captured trimmed text); `inflight` are the issued-but-unresolved
fetches, keyed by an issue-order request number so a response can be
matched to its request; `requests` is a ghost log of every issued request
text, in issue order. -/

structure AcState where
  autoCorrectOn : Bool
  pendingTimer : Option (Nat × String)
  inflight : List (Nat × String)
  nextReq : Nat
  suggestion : String
  requests : List String
deriving DecidableEq, Repr

/-- The initial coordinator state. -/
def initAc (enabled : Bool) : AcState :=
  { autoCorrectOn := enabled, pendingTimer := none, inflight := [],
    nextReq := 0, suggestion := "", requests := [] }

/-- One externally-arriving event: a textarea change carrying the new
value, or the arrival of the response to the fetch issued as request
number `reqId`, carrying the (already trimmed) suggestion string. -/
inductive AcEvent where
  | change (v : String)
  | response (reqId : Nat) (sugg : String)
deriving DecidableEq, Repr

/-- Elapse of time up to `now`: if the single pending debounce timer is
due, it fires, issuing the fetch for its captured text. -/
def acFire (now : Nat) (st : AcState) : AcState :=
  match st.pendingTimer with
  | some (ft, txt) =>
    if ft ≤ now then
      { st with pendingTimer := none,
                inflight := st.inflight ++ [(st.nextReq, txt)],
                nextReq := st.nextReq + 1,
                requests := st.requests ++ [txt] }
    else st
  | none => st

/-- `requestAutocorrect(text)` from App.jsx: when autocorrect is off, only
clear the suggestion and return (the pending timer is left as it is);
otherwise `clearTimeout` the pending timer and start a fresh 300ms one
capturing `text`. -/
def requestAutocorrect (now : Nat) (text : String) (st : AcState) : AcState :=
  if !st.autoCorrectOn then { st with suggestion := "" }
  else { st with pendingTimer := some (now + 300, text) }

/-- The textarea `onChange` from App.jsx:
`if (trim(v).length >= 3) requestAutocorrect(trim(v)); else setSuggestion("")`.
Note the under-3-characters branch clears only the suggestion, not the
pending timer. -/
def acChange (now : Nat) (v : String) (st : AcState) : AcState :=
  if (trimS v).length ≥ 3 then requestAutocorrect now (trimS v) st
  else { st with suggestion := "" }

/-- The fetch continuation inside `requestAutocorrect`: when the response
of request `reqId` arrives with the trimmed suggestion `sugg`, the handler
runs `if (sugg && sugg !== text.trim()) setSuggestion(sugg); else setSuggestion("")`
for its own captured `text`, unconditionally — there is no check that the
request is still the latest. -/
def acResponse (reqId : Nat) (sugg : String) (st : AcState) : AcState :=
  match st.inflight.find? (fun r => r.1 == reqId) with
  | some (_, txt) =>
    { st with inflight := st.inflight.filter (fun r => r.1 != reqId),
              suggestion := if sugg ≠ "" ∧ sugg ≠ jsTrim txt then sugg else "" }
  | none => st

/-- Process one timestamped event: let the debounce timer fire if due,
then apply the event. -/
def acStep (st : AcState) : Nat × AcEvent → AcState
  | (t, AcEvent.change v) => acChange t v (acFire t st)
  | (t, AcEvent.response r s) => acResponse r s (acFire t st)

/-- Process a timestamped event script in order. -/
def acRun (st : AcState) : List (Nat × AcEvent) → AcState
  | [] => st
  | e :: es => acRun (acStep st e) es

/-- End of the script: enough idle time passes for a still-pending
debounce timer to fire. -/
def acFinish (st : AcState) : AcState :=
  match st.pendingTimer with
  | some (_, txt) =>
    { st with pendingTimer := none,
              inflight := st.inflight ++ [(st.nextReq, txt)],
              nextReq := st.nextReq + 1,
              requests := st.requests ++ [txt] }
  | none => st

/-- A burst of typing: every event is a text change whose trimmed text has
at least 3 characters, timestamps strictly increase, and each change
arrives less than 300ms after the previous one. -/
def burstOk (prev : Nat) : List (Nat × AcEvent) → Bool
  | [] => true
  | (t, AcEvent.change v) :: rest =>
    decide (prev < t) && decide (t < prev + 300) && decide ((trimS v).length ≥ 3)
      && burstOk t rest
  | (_, AcEvent.response _ _) :: _ => false

/-- The trimmed text of the last change event of a script (default `d`). -/
def lastText (d : String) : List (Nat × AcEvent) → String
  | [] => d
  | (_, AcEvent.change v) :: rest => lastText (trimS v) rest
  | (_, AcEvent.response _ _) :: rest => lastText d rest

/-! ## Concrete states used by the closed theorems below -/

/-- A quiet baseline App state with one session `s1` selected. -/
def baseState : AppState :=
  { sessions := [{ id := "s1", title := "t", mode := "thorough",
                   messages := [⟨"m0", "user", "x", []⟩], trace := [], createdAt := 0 }]
    currentId := some "s1"
    mode := "thorough"
    question := ""
    status := Status.idle
    elapsed := 0
    plan := ⟨none, []⟩
    progress := 0
    statusLine := ""
    autoCorrectOn := true
    suggestion := ""
    suggestionFor := ""
    ac := none
    runId := none
    stream := none
    timerOn := false
    uidCtr := 5
    esCtr := 2 }

/-- A state in which a run on session `s1` is thinking, stream handle 7. -/
def c2State : AppState :=
  { baseState with status := Status.thinking, runId := some "s1",
                   stream := some (7, "s1"), timerOn := true, esCtr := 8 }

/-- A state stamped with the new run `new` while the session of the old
run `old` still exists. -/
def c1State : AppState :=
  { baseState with
      sessions := [{ id := "old", title := "o", mode := "thorough",
                     messages := [], trace := [], createdAt := 0 },
                   { id := "new", title := "n", mode := "thorough",
                     messages := [], trace := [], createdAt := 0 }]
      currentId := some "new"
      status := Status.thinking
      runId := some "new"
      stream := some (9, "new")
      timerOn := true
      statusLine := "Planning"
      esCtr := 10 }

/-- A state in which the live suggestion was produced for the text
`waht is ai` while the composer text has meanwhile become `waht is aiX`. -/
def c8State : AppState :=
  { baseState with
      question := "waht is aiX"
      suggestion := "what is ai"
      suggestionFor := "waht is ai" }

/-- A concrete session used by closed witnesses. -/
def sessA : Session :=
  { id := "sA", title := "a", mode := "fast", messages := [], trace := [], createdAt := 0 }

/-- A second concrete session used by closed witnesses. -/
def sessB : Session :=
  { id := "sB", title := "b", mode := "fast", messages := [], trace := [], createdAt := 0 }

/-- A coordinator state with two overlapping in-flight autocorrect
requests: request 0 for `waht` (issued first) and request 1 for
`waht is this`. -/
def c5WitState : AcState :=
  { autoCorrectOn := true, pendingTimer := none,
    inflight := [(0, "waht"), (1, "waht is this")], nextReq := 2,
    suggestion := "", requests := ["waht", "waht is this"] }

/-! # Theorems -/

/-- Mapping a guarded update over sessions none of which carries the
guarded id changes nothing. -/
theorem map_update_id (f : Session → Session) (id : String) (ss : List Session)
    (h : ∀ s ∈ ss, s.id ≠ id) :
    (ss.map fun s => if s.id = id then f s else s) = ss := by
  induction ss with
  | nil => rfl
  | cons a l ih =>
    simp only [List.map_cons, if_neg (h a (List.mem_cons_self a l))]
    rw [ih fun s hs => h s (List.mem_cons_of_mem a hs)]

/-- C10: appending a trace event or a final assistant message addressed to
a session id that is not present in the session list leaves the list
entirely unchanged, silently and without error. -/
theorem C10_stale_append (id : String) (ev : TraceEvent) (m : Message)
    (ss : List Session) (h : ∀ s ∈ ss, s.id ≠ id) :
    appendTraceL id ev ss = ss ∧ appendMessageL id m ss = ss :=
  ⟨map_update_id _ id ss h, map_update_id _ id ss h⟩

/-- Witness for C10 at a concrete stale id. -/
theorem C10_stale_append_witness :
    appendTraceL "zz" ⟨"status", TraceData.stateData "x"⟩ [sessA] = [sessA] ∧
    appendMessageL "zz" ⟨"m1", "assistant", "a", []⟩ [sessA] = [sessA] :=
  C10_stale_append "zz" ⟨"status", TraceData.stateData "x"⟩ ⟨"m1", "assistant", "a", []⟩
    [sessA] (by decide)

/-- C7: loading the persisted session list is total and yields the empty
list for absent or corrupt stored data, and saving is total and leaves the
store unchanged when the write fails. -/
theorem C7_persistence_safe
    (parse : String → Option (List Session)) (serialize : List Session → String)
    (hempty : parse "[]" = some []) (bad : String) (hbad : parse bad = none)
    (ss : List Session) (store : Option String) :
    loadSessions parse none = [] ∧
    loadSessions parse (some bad) = [] ∧
    saveSessions serialize true ss store = store := by
  refine ⟨?_, ?_, rfl⟩ <;> simp [loadSessions, hempty, hbad]

/-- Witness for C7 at a concrete parse function and corrupt string. -/
theorem C7_persistence_safe_witness :
    loadSessions (fun s => if s = "[]" then some [] else none) none = [] ∧
    loadSessions (fun s => if s = "[]" then some [] else none) (some "corrupt") = [] ∧
    saveSessions (fun _ => "x") true [sessA] none = none :=
  C7_persistence_safe (fun s => if s = "[]" then some [] else none) (fun _ => "x")
    (by decide) "corrupt" (by decide) [sessA] none

/-- C9: deleting the currently selected session removes exactly it from
the list and moves the selection to some remaining session when one
exists, else to none. -/
theorem C9_delete_selected (did : String) (ss : List Session)
    (hids : ∀ s ∈ ss, s.id ≠ "") :
    (∀ s ∈ (deleteSession did ss (some did)).1, s.id ≠ did) ∧
    (∀ s ∈ ss, s.id ≠ did → s ∈ (deleteSession did ss (some did)).1) ∧
    ((∃ s ∈ ss, s.id ≠ did) →
      ∃ sid, (deleteSession did ss (some did)).2 = some sid ∧
        ∃ s ∈ (deleteSession did ss (some did)).1, s.id = sid) ∧
    ((∀ s ∈ ss, s.id = did) → (deleteSession did ss (some did)).2 = none) := by
  refine ⟨?_, ?_, ?_, ?_⟩
  · intro s hs
    have := (List.mem_filter.mp hs).2
    simpa using this
  · intro s hs hne
    exact List.mem_filter.mpr ⟨hs, by simpa using hne⟩
  · rintro ⟨s0, hs0, hne0⟩
    have hsnd : (deleteSession did ss (some did)).2 =
        (match ss.find? (fun s => s.id != did) with
         | some s => if s.id = "" then none else some s.id
         | none => none) := by
      simp [deleteSession]
    cases hf : ss.find? (fun s => s.id != did) with
    | none =>
      exact absurd (by simpa using List.find?_eq_none.mp hf s0 hs0) (by simpa using hne0)
    | some s1 =>
      have hp : s1.id ≠ did := by simpa using List.find?_some hf
      have hm : s1 ∈ ss := List.mem_of_find?_eq_some hf
      refine ⟨s1.id, ?_, s1, List.mem_filter.mpr ⟨hm, by simpa using hp⟩, rfl⟩
      rw [hsnd, hf]
      exact if_neg (hids s1 hm)
  · intro hall
    have hf : ss.find? (fun s => s.id != did) = none :=
      List.find?_eq_none.mpr fun x hx => by simp [hall x hx]
    simp [deleteSession, hf]

/-- Witness for C9 on a two-session list with the first one selected and
deleted. -/
theorem C9_delete_selected_witness :
    (∀ s ∈ (deleteSession "sA" [sessA, sessB] (some "sA")).1, s.id ≠ "sA") ∧
    (∀ s ∈ [sessA, sessB], s.id ≠ "sA" → s ∈ (deleteSession "sA" [sessA, sessB] (some "sA")).1) ∧
    ((∃ s ∈ [sessA, sessB], s.id ≠ "sA") →
      ∃ sid, (deleteSession "sA" [sessA, sessB] (some "sA")).2 = some sid ∧
        ∃ s ∈ (deleteSession "sA" [sessA, sessB] (some "sA")).1, s.id = sid) ∧
    ((∀ s ∈ [sessA, sessB], s.id = "sA") →
      (deleteSession "sA" [sessA, sessB] (some "sA")).2 = none) :=
  C9_delete_selected "sA" [sessA, sessB] (by decide)

/-- C2 counterexample: `stopRun` is not idempotent as claimed.  On
`baseState`, which has no active run (no stream, no ticker, no stamped run
id, status idle), `stopRun` still changes the state (it sets status to
stopped); and on the thinking state `c2State` a second call changes the
state beyond the first call's effect (it appends a second user-stop trace
event to session `s1`, whose stamp `runIdRef` is never cleared). -/
theorem C2_counterexample :
    stopRun baseState ≠ baseState ∧
    stopRun (stopRun c2State) ≠ stopRun c2State ∧
    ((stopRun (stopRun c2State)).sessions.map fun s => s.trace.length) = [2] ∧
    ((stopRun c2State).sessions.map fun s => s.trace.length) = [1] := by
  refine ⟨by decide, by decide, by decide, by decide⟩

/-- C2 amended: `stopRun` closes the stream, stops the ticker and sets
status to stopped; when a run id is stamped it also appends a user-stop
status event to that session's trace.  With no stamped run id the call is
a no-op except for setting status to stopped (and it is then idempotent);
with a stamped run id a second call differs from the first exactly by one
more user-stop trace event on the stamped session. -/
theorem C2_amended (st : AppState) :
    (st.runId = none →
      stopRun st = { st with status := Status.stopped, stream := none, timerOn := false } ∧
      stopRun (stopRun st) = stopRun st) ∧
    (∀ id, st.runId = some id →
      stopRun (stopRun st) =
        { stopRun st with
            sessions := appendTraceL id ⟨"status", TraceData.stateData "Stopped by user"⟩
              (stopRun st).sessions }) := by
  constructor
  · intro h
    constructor
    · simp [stopRun, h]
    · simp [stopRun, h]
  · intro id h
    simp [stopRun, h]

/-- Witness for C2 amended, at the concrete thinking state `c2State`. -/
theorem C2_amended_witness :
    stopRun (stopRun c2State) =
      { stopRun c2State with
          sessions := appendTraceL "s1" ⟨"status", TraceData.stateData "Stopped by user"⟩
            (stopRun c2State).sessions } :=
  (C2_amended c2State).2 "s1" rfl

/-- C3 counterexample: the run-state progress is not clamped before use.
A progress event carrying −5 stores −5 (outside [0,100]) in the run
state, and the step-done derivation consumes this raw value: with 100 plan
steps, step 0 is not marked done at raw progress −5 although it would be
at the clamped value 0. -/
theorem C3_counterexample :
    (progressHandler (some (-5)) baseState).progress = -5 ∧
    ¬ (0 ≤ (progressHandler (some (-5)) baseState).progress) ∧
    stepDone (progressHandler (some (-5)) baseState).progress 100 0 = false ∧
    stepDone (displayedPct (progressHandler (some (-5)) baseState).progress) 100 0 = true := by
  refine ⟨rfl, ?_, ?_, ?_⟩
  · norm_num [progressHandler, baseState]
  · show stepDone (-5) 100 0 = false
    norm_num [stepDone, stepPct]
  · show stepDone (displayedPct (-5)) 100 0 = true
    norm_num [stepDone, stepPct, displayedPct]

/-- C3 amended: the progress handler stores the raw numeric payload
unclamped; clamping into [0,100] happens only at the display site, so the
displayed percentage is always in [0,100] for every payload value. -/
theorem C3_amended (p : Rat) (st : AppState) :
    0 ≤ displayedPct p ∧ displayedPct p ≤ 100 ∧
    (progressHandler (some p) st).progress = p := by
  refine ⟨le_max_left 0 _, max_le (by norm_num) (min_le_left _ _), rfl⟩

/-- Length of the loader step list equals the number of plan steps. -/
theorem loaderStepsAux_length (n : Nat) (p : Rat) :
    ∀ (l : List String) (i : Nat), (loaderStepsAux n p i l).length = l.length := by
  intro l
  induction l with
  | nil => intro i; rfl
  | cons a rest ih => intro i; simp [loaderStepsAux, ih]

/-- Entry `j` of the loader step list pairs step `j` with the done test at
index `i + j`. -/
theorem loaderStepsAux_get (n : Nat) (p : Rat) :
    ∀ (l : List String) (i j : Nat) (h : j < (loaderStepsAux n p i l).length)
      (h' : j < l.length),
      (loaderStepsAux n p i l).get ⟨j, h⟩ = (l.get ⟨j, h'⟩, stepDone p n (i + j)) := by
  intro l
  induction l with
  | nil => intro i j h h'; exact absurd h' (by simp)
  | cons a rest ih =>
    intro i j h h'
    cases j with
    | zero => simp [loaderStepsAux]
    | succ k =>
      have hk : k < (loaderStepsAux n p (i + 1) rest).length := by
        have := h
        simpa [loaderStepsAux, Nat.succ_lt_succ_iff] using this
      have hk' : k < rest.length := by simpa [Nat.succ_lt_succ_iff] using h'
      have := ih (i + 1) k hk hk'
      simp only [loaderStepsAux, List.get_cons_succ, this]
      congr 2
      omega

/-- C4: the mark ClaudeLoader renders for step `i` of a plan is done iff
`progress ≥ ((i+1)/N)*100 − 1` where `N` is the number of plan steps; in
particular at N = 4 and progress 60, steps 0 and 1 are done and steps 2
and 3 are not. -/
theorem C4_step_done_rule :
    (∀ (plan : Plan) (progress : Rat) (i : Nat)
        (h : i < (loaderSteps plan progress).length),
        ((loaderSteps plan progress).get ⟨i, h⟩).2 = true ↔
          progress ≥ (((i : Rat) + 1) / (plan.steps.length : Rat)) * 100 - 1) ∧
    loaderSteps ⟨none, ["a", "b", "c", "d"]⟩ 60 =
      [("a", true), ("b", true), ("c", false), ("d", false)] := by
  constructor
  · intro plan progress i h
    have h' : i < plan.steps.length := by
      simpa [loaderSteps, loaderStepsAux_length] using h
    simp only [loaderSteps] at h ⊢
    rw [loaderStepsAux_get _ _ _ _ _ h h']
    simp [stepDone, stepPct, ge_iff_le]
  · norm_num [loaderSteps, loaderStepsAux, stepDone, stepPct]

/-- Witness for C4 at the concrete boundary N = 4, progress = 60, i = 1. -/
theorem C4_step_done_rule_witness :
    ((loaderSteps ⟨none, ["a", "b", "c", "d"]⟩ 60).get
        ⟨1, by norm_num [loaderSteps, loaderStepsAux_length]⟩).2 = true ↔
      (60 : Rat) ≥ (((1 : Nat) : Rat) + 1) /
          (((["a", "b", "c", "d"] : List String).length : Nat) : Rat) * 100 - 1 :=
  C4_step_done_rule.1 ⟨none, ["a", "b", "c", "d"]⟩ 60 1
    (by norm_num [loaderSteps, loaderStepsAux_length])

/-- Unfolded form of `send` on a non-empty trimmed question. -/
theorem send_eq (st : AppState) (hq : trimS st.question ≠ "") :
    send st =
      { st with
          sessions := (ensureSession (effQuery st) st).2.1.map fun s =>
            if s.id = (ensureSession (effQuery st) st).1 then
              { s with
                  title := if s.messages.isEmpty then titleOf (effQuery st) else s.title,
                  messages := s.messages ++
                    [⟨mkUid (ensureSession (effQuery st) st).2.2.2, "user", effQuery st, []⟩],
                  trace := [] }
            else s
          currentId := (ensureSession (effQuery st) st).2.2.1
          suggestion := ""
          suggestionFor := ""
          ac := if st.autoCorrectOn ∧ st.suggestion ≠ "" ∧ st.suggestion ≠ trimS st.question
                then some ⟨trimS st.question, st.suggestion⟩ else none
          runId := some (ensureSession (effQuery st) st).1
          question := ""
          status := Status.thinking
          elapsed := 0
          plan := ⟨none, []⟩
          progress := 0
          statusLine := ""
          timerOn := true
          stream := some (st.esCtr, (ensureSession (effQuery st) st).1)
          uidCtr := (ensureSession (effQuery st) st).2.2.2 + 1
          esCtr := st.esCtr + 1 } := by
  simp only [send]
  rw [if_neg hq]

/-- C1 counterexample: the stream event handlers perform no check that the
event belongs to the currently-stamped run.  In `c1State` the stamped run
is `new`, yet the status and plan handlers of the old run (captured id
`old` ≠ `new`) mutate the shared run-state when invoked. -/
theorem C1_counterexample :
    c1State.runId = some "new" ∧
    ("old" : String) ≠ "new" ∧
    (statusHandler "old" "Refining" c1State).statusLine = "Refining" ∧
    c1State.statusLine ≠ "Refining" ∧
    (planHandler "old" (some "i") ["s1"] c1State).plan ≠ c1State.plan := by
  refine ⟨rfl, by decide, rfl, by decide, by decide⟩

/-- C1 amended: starting a new run while a stream is open leaves the state
with a fresh stream handle and the ticker restarted (elapsed reset), and
any event subsequently produced by the old stream is not delivered — it
changes nothing, so it never mutates the new run's state and never appends
to any session.  The handlers themselves carry no stamped-run check; the
isolation comes from the old stream being closed before the new one is
opened. -/
theorem C1_amended (st : AppState) (hOld : Nat) (oldId : String)
    (hstream : st.stream = some (hOld, oldId))
    (hfresh : hOld ≠ st.esCtr)
    (hq : trimS st.question ≠ "") :
    (send st).timerOn = true ∧
    (send st).elapsed = 0 ∧
    (∃ nid, (send st).runId = some nid ∧ (send st).stream = some (st.esCtr, nid)) ∧
    (∀ ev, deliver hOld ev (send st) = send st) := by
  rw [send_eq st hq]
  refine ⟨rfl, rfl, ⟨(ensureSession (effQuery st) st).1, rfl, rfl⟩, ?_⟩
  intro ev
  simp [deliver, hfresh.symm]

/-- Witness for C1 amended at a concrete thinking state whose old stream
has handle 9 while the fresh counter is 10. -/
theorem C1_amended_witness :
    (send { c1State with question := "next question" }).timerOn = true ∧
    (send { c1State with question := "next question" }).elapsed = 0 ∧
    (∃ nid, (send { c1State with question := "next question" }).runId = some nid ∧
      (send { c1State with question := "next question" }).stream =
        some ({ c1State with question := "next question" }.esCtr, nid)) ∧
    (∀ ev, deliver 9 ev (send { c1State with question := "next question" }) =
      send { c1State with question := "next question" }) :=
  C1_amended { c1State with question := "next question" } 9 "new" rfl (by decide) (by decide)

/-- C8 counterexample: on submit the code applies any live non-identical
suggestion even when it was produced for a different text than the current
trimmed question.  In `c8State` the suggestion `what is ai` was produced
for `waht is ai` while the question is `waht is aiX`; the claim then
requires the effective query to be the raw trimmed text, but the submitted
user message content is the suggestion. -/
theorem C8_counterexample :
    c8State.autoCorrectOn = true ∧
    c8State.suggestionFor ≠ trimS c8State.question ∧
    ((send c8State).sessions.map fun s => s.messages.map Message.content) =
      [["x", "what is ai"]] ∧
    trimS c8State.question = "waht is aiX" ∧
    ("what is ai" : String) ≠ "waht is aiX" := by
  refine ⟨rfl, by decide, by decide, by decide, by decide⟩

/-- C8 amended: on submit with a selected existing session, if autocorrect
is enabled and a live suggestion differs from the raw trimmed text
(regardless of which text the suggestion was produced for), the effective
query — the appended user message content — is the suggestion and the
applied-correction record {original, corrected} is produced; otherwise the
effective query is the raw trimmed text and no record is produced; the
pending suggestion is cleared in both cases. -/
theorem C8_amended (st : AppState) (cid : String) (c : Session)
    (hq : trimS st.question ≠ "")
    (hcur : st.currentId = some cid)
    (hfind : st.sessions.find? (fun s => s.id == cid) = some c) :
    effQuery st = (if st.autoCorrectOn ∧ st.suggestion ≠ "" ∧ st.suggestion ≠ trimS st.question
                   then st.suggestion else trimS st.question) ∧
    (send st).suggestion = "" ∧
    (send st).ac = (if st.autoCorrectOn ∧ st.suggestion ≠ "" ∧ st.suggestion ≠ trimS st.question
                    then some ⟨trimS st.question, st.suggestion⟩ else none) ∧
    (send st).sessions = st.sessions.map fun s =>
      if s.id = c.id then
        { s with
            title := if s.messages.isEmpty then titleOf (effQuery st) else s.title,
            messages := s.messages ++ [⟨mkUid st.uidCtr, "user", effQuery st, []⟩],
            trace := [] }
      else s := by
  have hens : ensureSession (effQuery st) st = (c.id, st.sessions, st.currentId, st.uidCtr) := by
    simp [ensureSession, hcur, hfind]
  rw [send_eq st hq]
  exact ⟨rfl, rfl, rfl, by rw [hens]⟩

/-- Witness for C8 amended at `c8State` (selected session `s1` exists). -/
theorem C8_amended_witness :
    effQuery c8State =
      (if c8State.autoCorrectOn ∧ c8State.suggestion ≠ "" ∧
          c8State.suggestion ≠ trimS c8State.question
       then c8State.suggestion else trimS c8State.question) ∧
    (send c8State).suggestion = "" ∧
    (send c8State).ac =
      (if c8State.autoCorrectOn ∧ c8State.suggestion ≠ "" ∧
          c8State.suggestion ≠ trimS c8State.question
       then some ⟨trimS c8State.question, c8State.suggestion⟩ else none) ∧
    (send c8State).sessions = c8State.sessions.map fun s =>
      if s.id = (⟨"s1", "t", "thorough", [⟨"m0", "user", "x", []⟩], [], 0⟩ : Session).id then
        { s with
            title := if s.messages.isEmpty then titleOf (effQuery c8State) else s.title,
            messages := s.messages ++ [⟨mkUid c8State.uidCtr, "user", effQuery c8State, []⟩],
            trace := [] }
      else s :=
  C8_amended c8State "s1" ⟨"s1", "t", "thorough", [⟨"m0", "user", "x", []⟩], [], 0⟩
    (by decide) rfl (by decide)

/-- C5 counterexample: overlapping in-flight autocorrect requests are not
superseded by sequence.  Typing `waht`, then (after its request 0 fires)
`waht is this` issues request 1; request 1's response arrives first and is
shown, then request 0's response arrives later and overwrites it, so the
shown suggestion ends as the result of the earlier, superseded request. -/
theorem C5_counterexample :
    (acRun (initAc true)
        [(0, AcEvent.change "waht"), (400, AcEvent.change "waht is this"),
         (800, AcEvent.response 1 "what is this")]).suggestion = "what is this" ∧
    (acRun (initAc true)
        [(0, AcEvent.change "waht"), (400, AcEvent.change "waht is this"),
         (800, AcEvent.response 1 "what is this"),
         (900, AcEvent.response 0 "what")]).suggestion = "what" ∧
    (acRun (initAc true)
        [(0, AcEvent.change "waht"), (400, AcEvent.change "waht is this"),
         (800, AcEvent.response 1 "what is this"),
         (900, AcEvent.response 0 "what")]).requests = ["waht", "waht is this"] := by
  refine ⟨by decide, by decide, by decide⟩

/-- C5 amended: the response handler applies its own request's result
unconditionally — there is no supersession check — so with two overlapping
in-flight requests (the older `o`, the newer `n`), delivering `n`'s
response and then `o`'s leaves the shown suggestion determined by `o`'s
late-arriving response: the last-arriving response wins, whatever the
issue order. -/
theorem C5_amended (st : AcState) (o n : Nat) (txtO txtN suggO suggN : String)
    (hon : o < n)
    (hn : st.inflight.find? (fun r => r.1 == n) = some (n, txtN))
    (ho : (acResponse n suggN st).inflight.find? (fun r => r.1 == o) = some (o, txtO)) :
    (acResponse n suggN st).suggestion =
      (if suggN ≠ "" ∧ suggN ≠ jsTrim txtN then suggN else "") ∧
    (acResponse o suggO (acResponse n suggN st)).suggestion =
      (if suggO ≠ "" ∧ suggO ≠ jsTrim txtO then suggO else "") := by
  constructor
  · simp [acResponse, hn]
  · set st' := acResponse n suggN st with hst'
    simp [acResponse, ho]

/-- Witness for C5 amended at the concrete two-in-flight state. -/
theorem C5_amended_witness :
    (acResponse 1 "what is this" c5WitState).suggestion = "what is this" ∧
    (acResponse 0 "what" (acResponse 1 "what is this" c5WitState)).suggestion = "what" :=
  C5_amended c5WitState 0 1 "waht" "waht is this" "what" "what is this"
    (by decide) (by decide) (by decide)

/-- C6 counterexample: a text change whose trimmed text is under 3
characters clears the pending suggestion but does not cancel the pending
request timer.  Typing `waht` then deleting to `wa` within 300ms leaves
the timer alive, and a request for the stale text `waht` is still issued. -/
theorem C6_counterexample :
    (acRun (initAc true)
        [(0, AcEvent.change "waht"), (100, AcEvent.change "wa")]).suggestion = "" ∧
    (acFinish (acRun (initAc true)
        [(0, AcEvent.change "waht"), (100, AcEvent.change "wa")])).requests = ["waht"] := by
  refine ⟨by decide, by decide⟩

/-- During a burst (strictly increasing timestamps, gaps under 300ms,
every trimmed text at least 3 characters, autocorrect on) the pending
timer is only re-armed: no request fires and the in-flight set is
untouched. -/
theorem acRun_burst :
    ∀ (script : List (Nat × AcEvent)) (st : AcState) (t0 : Nat) (txt : String),
      st.autoCorrectOn = true →
      st.pendingTimer = some (t0 + 300, txt) →
      burstOk t0 script = true →
      (acRun st script).requests = st.requests ∧
      (acRun st script).inflight = st.inflight ∧
      (acRun st script).nextReq = st.nextReq ∧
      ∃ tl, (acRun st script).pendingTimer = some (tl + 300, lastText txt script) := by
  intro script
  induction script with
  | nil =>
    intro st t0 txt hOn hp hb
    exact ⟨rfl, rfl, rfl, t0, by simpa [lastText] using hp⟩
  | cons e rest ih =>
    rintro st t0 txt hOn hp hb
    obtain ⟨t, ev⟩ := e
    cases ev with
    | response r s => simp [burstOk] at hb
    | change v =>
      simp only [burstOk, Bool.and_eq_true, decide_eq_true_eq] at hb
      obtain ⟨⟨⟨h1, h2⟩, h3⟩, h4⟩ := hb
      have hfire : acFire t st = st := by
        simp [acFire, hp, Nat.not_le.mpr h2]
      have hchange : acChange t v (acFire t st) =
          { st with pendingTimer := some (t + 300, trimS v) } := by
        rw [hfire]
        simp [acChange, if_pos h3, requestAutocorrect, hOn]
      have hstep2 : acRun st ((t, AcEvent.change v) :: rest) =
          acRun { st with pendingTimer := some (t + 300, trimS v) } rest := by
        simp only [acRun, acStep, hchange]
      rw [hstep2]
      simp only [lastText]
      exact ih { st with pendingTimer := some (t + 300, trimS v) } t (trimS v) hOn rfl h4

/-- C6 amended: a change with the trimmed text under 3 characters (or with
autocorrect off) clears the suggestion but does not cancel a pending
request timer; in the positive direction, a burst of ≥3-character changes
each arriving within 300ms of the previous one, followed by a ≥300ms
pause, issues exactly one suggestion request, for the final text. -/
theorem C6_amended (t1 : Nat) (v1 : String) (rest : List (Nat × AcEvent))
    (h1 : (trimS v1).length ≥ 3) (hb : burstOk t1 rest = true) :
    (acFinish (acRun (initAc true) ((t1, AcEvent.change v1) :: rest))).requests =
      [lastText (trimS v1) rest] ∧
    (acFinish (acRun (initAc true) ((t1, AcEvent.change v1) :: rest))).pendingTimer = none := by
  have hstep : acStep (initAc true) (t1, AcEvent.change v1) =
      { autoCorrectOn := true, pendingTimer := some (t1 + 300, trimS v1),
        inflight := [], nextReq := 0, suggestion := "", requests := [] } := by
    simp [acStep, acFire, initAc, acChange, if_pos h1, requestAutocorrect]
  have hrun : acRun (initAc true) ((t1, AcEvent.change v1) :: rest) =
      acRun { autoCorrectOn := true, pendingTimer := some (t1 + 300, trimS v1),
              inflight := [], nextReq := 0, suggestion := "", requests := [] } rest := by
    simp only [acRun, hstep]
  obtain ⟨hreq, hinf, hnext, tl, hpend⟩ :=
    acRun_burst rest
      { autoCorrectOn := true, pendingTimer := some (t1 + 300, trimS v1),
        inflight := [], nextReq := 0, suggestion := "", requests := [] }
      t1 (trimS v1) rfl rfl hb
  rw [hrun]
  constructor
  · simp [acFinish, hpend, hreq]
  · simp [acFinish, hpend]

/-- Witness for C6 amended: the burst `waht is ai` then `waht is aix`
100ms later, followed by silence, issues exactly the one request
`waht is aix`. -/
theorem C6_amended_witness :
    (acFinish (acRun (initAc true)
        [(0, AcEvent.change "waht is ai"), (100, AcEvent.change "waht is aix")])).requests =
      ["waht is aix"] ∧
    (acFinish (acRun (initAc true)
        [(0, AcEvent.change "waht is ai"), (100, AcEvent.change "waht is aix")])).pendingTimer =
      none :=
  C6_amended 0 "waht is ai" [(100, AcEvent.change "waht is aix")] (by decide) (by decide)

end Nebula
